import Mathlib

/-!
Verification of the configuration-resolution and collection-assignment core of
stac-task (`src/stactask/utils.py`, `src/stactask/payload.py`,
`src/stactask/task.py`).

The payload is a JSON document; Python `dict`s are modelled as association
lists in insertion order (JSON object keys are strings, and a Python `dict`
holds each key once).  Fallible Python code (accessors that raise `TypeError`,
`ValueError` or `KeyError`) is modelled with `Except PyError`.  JSONPath
evaluation (`jsonpath_ng`) is an external primitive: it is modelled as a
parameter `jp : JValue → String → Nat` giving the number of nodes a pattern
selects in a document, exactly the quantity `stac_jsonpath_match` compares
with 1.
-/

namespace StacTask

/-- A JSON value, the shape of every payload field.  Objects are association
lists in insertion order, mirroring Python 3.7+ `dict` semantics. -/
inductive JValue where
  | null : JValue
  | bool (b : Bool) : JValue
  | num (n : Int) : JValue
  | str (s : String) : JValue
  | arr (elems : List JValue) : JValue
  | obj (fields : List (String × JValue)) : JValue

/-- Association list with string keys: the model of a Python `dict`. -/
abbrev AList (α : Type) := List (String × α)

/-- The model of a Python `dict` holding JSON values. -/
abbrev Dict := AList JValue

namespace AList

variable {α : Type}

/-- `d.get(k)` / `d[k]` lookup: the first binding of `k` (a Python dict has
at most one). -/
def get? : AList α → String → Option α
  | [], _ => none
  | e :: rest, k => if e.1 = k then some e.2 else get? rest k

/-- `d.get(k, default)`. -/
def getD (d : AList α) (k : String) (v : α) : α := (get? d k).getD v

/-- `k in d`. -/
def contains (d : AList α) (k : String) : Bool := d.any (fun e => e.1 == k)

/-- `d[k] = v`: update the binding in place when the key is present
(preserving its position), else append.  Python dicts hold each key once; if
the list (improperly) held duplicates every binding of `k` would be updated. -/
def insert (d : AList α) (k : String) (v : α) : AList α :=
  if contains d k then d.map (fun e => if e.1 = k then (k, v) else e)
  else d ++ [(k, v)]

/-- `{**a, **b}` for dicts `a` and `b`: start from `a`, then set each binding
of `b` in order (Python builds the fresh dict by inserting `a`'s entries and
then `b`'s; for a Python dict `a`, whose keys are unique, that equals folding
`b`'s entries into `a`). -/
def merge (a b : AList α) : AList α := b.foldl (fun acc e => insert acc e.1 e.2) a

/-- The keys of the dict. -/
def keys (d : AList α) : List String := d.map (·.1)

end AList

/-- Python truthiness of a JSON value (`if not x`). -/
def JValue.truthy : JValue → Bool
  | .null => false
  | .bool b => b
  | .num n => n != 0
  | .str s => !s.isEmpty
  | .arr l => !l.isEmpty
  | .obj l => !l.isEmpty

/-- The exceptions the modelled code raises. -/
inductive PyError where
  | typeError (msg : String) : PyError
  | valueError (msg : String) : PyError
  | keyError (key : String) : PyError
  | failedValidation : PyError
deriving DecidableEq

/-! ## The collection resolver (`src/stactask/utils.py`) -/

/-- The external JSONPath engine: how many nodes `parser.parse(expr).find([item])`
selects.  `jsonpath_ng` is outside the embedding; the resolver is parametric in
this primitive. -/
abbrev MatchEngine := JValue → String → Nat

/-- `stac_jsonpath_match`: the expression matches when it selects exactly one
node (`len([x.value for x in parser.parse(expr).find([item])]) == 1`). -/
def stac_jsonpath_match (jp : MatchEngine) (item : JValue) (expr : String) : Bool :=
  jp item expr == 1

/-- Python `str()` of a JSON scalar, as it appears interpolated into error
messages.  Compound values only occur in messages outside the claims; the
placeholder text stands in for Python's repr of those. -/
def pyStr : JValue → String
  | .str s => s
  | .num n => toString n
  | .bool true => "True"
  | .bool false => "False"
  | .null => "None"
  | .arr _ => "<list>"
  | .obj _ => "<dict>"

/-- `_find_collection_from_mapping`: first collection whose JSONPath expression
matches, iterating the legacy name-to-expression mapping in insertion order.
`parser.parse` requires a string expression; a non-string raises. -/
def find_collection_from_mapping (jp : MatchEngine) :
    Dict → JValue → Except PyError (Option String)
  | [], _ => .ok none
  | (c, expr) :: rest, item =>
    match expr with
    | .str e =>
      if stac_jsonpath_match jp item e then .ok (some c)
      else find_collection_from_mapping jp rest item
    | _ => .error (.typeError "jsonpath expression must be type str")

/-- The collection name a matcher returns.  `_find_collection_from_matchers`
annotates `collection_name: str`; the embedding enforces the annotation. -/
def as_collection_name : JValue → Except PyError (Option String)
  | .str s => .ok (some s)
  | _ => .error (.typeError "collection_name must be type str")

/-- `_find_collection_from_matchers`: walk the matcher list in order.  Each
iteration reads `matcher["type"]` and `matcher["collection_name"]` (a missing
key raises `KeyError`), then dispatches on the type: `jsonpath` returns the
collection name when the pattern selects exactly one node, `catch_all` returns
it unconditionally, and any other type raises
`ValueError(f"Unknown matcher type: {matcher_type}")`. -/
def find_collection_from_matchers (jp : MatchEngine) :
    List JValue → JValue → Except PyError (Option String)
  | [], _ => .ok none
  | m :: rest, item =>
    match m with
    | .obj d =>
      match AList.get? d "type" with
      | none => .error (.keyError "type")
      | some tv =>
        match AList.get? d "collection_name" with
        | none => .error (.keyError "collection_name")
        | some cnv =>
          match tv with
          | .str t =>
            if t = "jsonpath" then
              match AList.get? d "pattern" with
              | none => .error (.keyError "pattern")
              | some (.str pat) =>
                if stac_jsonpath_match jp item pat then as_collection_name cnv
                else find_collection_from_matchers jp rest item
              | some _ => .error (.typeError "jsonpath pattern must be type str")
            else if t = "catch_all" then as_collection_name cnv
            else .error (.valueError ("Unknown matcher type: " ++ t))
          | _ => .error (.valueError ("Unknown matcher type: " ++ pyStr tv))
    | _ => .error (.typeError "matcher must be type dict")

/-- `find_collection`: falsy configuration resolves to no collection at once;
a dict dispatches to the legacy mapping, a list to the matcher list, anything
else raises `TypeError`. -/
def find_collection (jp : MatchEngine) (collection_config : JValue) (item : JValue) :
    Except PyError (Option String) :=
  if !collection_config.truthy then .ok none
  else
    match collection_config with
    | .obj mapping => find_collection_from_mapping jp mapping item
    | .arr matchers => find_collection_from_matchers jp matchers item
    | _ => .error (.typeError "Unsupported collection config type. Expected dict or list of dicts.")

/-! ## The configuration view (`src/stactask/payload.py`)

A `Payload` is the raw payload dict; each property is a validating accessor
returning `Except PyError`.  Error messages follow the source; deprecation
warnings (bare-dict `process`, list-form `tasks`) are non-fatal side channels
and are noted in comments only. -/

namespace Payload

/-- `Payload.process_definition`: `self.get("process", [])`; a bare dict is
returned as is (deprecated form), a list must have a dict first element, an
empty list means no process definition, and any other shape raises. -/
def process_definition (p : Dict) : Except PyError Dict :=
  match AList.getD p "process" (.arr []) with
  | .obj d => .ok d
  | .arr [] => .ok []
  | .arr (first :: _) =>
    match first with
    | .obj d => .ok d
    | _ => .error (.typeError
        "unable to parse 'process': the first element of the list must be type dict")
  | _ => .error (.typeError "unable to parse 'process': must be type list")

/-- `Payload.workflow_options`: `process_definition.get("workflow_options", {})`,
required to be a dict. -/
def workflow_options (p : Dict) : Except PyError Dict := do
  let pd ← process_definition p
  match AList.getD pd "workflow_options" (.obj []) with
  | .obj d => .ok d
  | _ => .error (.typeError "unable to parse 'workflow_options': must be type dict")

/-- One entry of the deprecated list form of `tasks`: `name = cfg["name"]`
(a missing key raises `KeyError`; JSON object keys are strings, so the
embedding reads the name as a string), then `parameters = cfg.get("parameters",
{})` which must be a dict.  Indexing a non-dict entry raises `TypeError`. -/
def task_list_entry (cfg : JValue) : Except PyError (String × Dict) :=
  match cfg with
  | .obj d =>
    match AList.get? d "name" with
    | none => .error (.keyError "name")
    | some (.str name) =>
      match AList.getD d "parameters" (.obj []) with
      | .obj params => .ok (name, params)
      | _ => .error (.typeError
          ("unable to parse 'parameters' for task '" ++ name ++ "': must be type dict"))
    | some _ => .error (.typeError "task name must be type str")
  | _ => .error (.typeError "task config must be type dict")

/-- The loop of the deprecated list form: `options = {}` then
`options[name] = parameters` for each entry, so a repeated name keeps the
**last** entry. -/
def task_options_from_list (options : AList Dict) :
    List JValue → Except PyError (AList Dict)
  | [] => .ok options
  | cfg :: rest => do
    let e ← task_list_entry cfg
    task_options_from_list (AList.insert options e.1 e.2) rest

/-- The check of the current dict form: every per-task value must be a dict;
the mapping itself is returned unchanged. -/
def task_options_check_dict : AList JValue → Except PyError (AList Dict)
  | [] => .ok []
  | (name, v) :: rest =>
    match v with
    | .obj opts => do
      let tail ← task_options_check_dict rest
      .ok ((name, opts) :: tail)
    | _ => .error (.typeError
        ("unable to parse options for task '" ++ name ++ "': must be type dict"))

/-- `Payload.task_options_dict`: the `tasks` field as a mapping of task name to
options dict.  The deprecated list form is folded entry by entry with
`options[name] = parameters`; the dict form requires every value to be a
dict. -/
def task_options_dict (p : Dict) : Except PyError (AList Dict) := do
  let pd ← process_definition p
  match AList.getD pd "tasks" (.obj []) with
  | .arr cfgs => task_options_from_list [] cfgs
  | .obj d => task_options_check_dict d
  | _ => .error (.typeError
      "unable to parse 'tasks': must be type dict or type list (deprecated)")

/-- `Payload.items_as_dicts`: the `features` field, required to be a list. -/
def items_as_dicts (p : Dict) : Except PyError (List JValue) :=
  match AList.getD p "features" (.arr []) with
  | .arr l => .ok l
  | _ => .error (.typeError "unable to parse 'features': must be type list")

/-- `Payload.global_upload_options`: `process_definition.get("upload_options",
{})`, required to be a dict. -/
def global_upload_options (p : Dict) : Except PyError Dict := do
  let pd ← process_definition p
  match AList.getD pd "upload_options" (.obj []) with
  | .obj d => .ok d
  | _ => .error (.typeError "unable to parse 'upload_options': must be type dict")

/-- `Payload.collection_mapping`: the legacy `upload_options.collections`
mapping, required to be a dict. -/
def collection_mapping (p : Dict) : Except PyError Dict := do
  let uo ← global_upload_options p
  match (AList.getD uo "collections" (.obj [])) with
  | .obj d => .ok d
  | _ => .error (.typeError "unable to parse 'collections': must be type dict")

/-- `Payload.collection_matchers`: the `collection_matchers` list; it must be a
list and every element must be a dict. -/
def collection_matchers (p : Dict) : Except PyError (List JValue) := do
  let pd ← process_definition p
  match AList.getD pd "collection_matchers" (.arr []) with
  | .arr ms =>
    if ms.all (fun m => match m with | .obj _ => true | _ => false) then .ok ms
    else .error (.typeError
        "unable to parse 'collection_matchers': each matcher must be type dict")
  | _ => .error (.typeError "unable to parse 'collection_matchers': must be type list")

/-- `Payload.collection_options`: the `collection_options` mapping, required to
be a dict. -/
def collection_options (p : Dict) : Except PyError Dict := do
  let pd ← process_definition p
  match AList.getD pd "collection_options" (.obj []) with
  | .obj d => .ok d
  | _ => .error (.typeError "unable to parse 'collection_options': must be type dict")

/-- `Payload.get_collection_options`: `collection_options.get(name, {})`,
required (per entry) to be a dict. -/
def get_collection_options (p : Dict) (collection_name : String) :
    Except PyError Dict := do
  let co ← collection_options p
  match AList.getD co collection_name (.obj []) with
  | .obj d => .ok d
  | _ => .error (.typeError
      ("unable to parse 'collection_options' for collection '" ++ collection_name
        ++ "': must be type dict"))

/-- `Payload.get_collection_upload_options`: the per-collection
`upload_options` when truthy, else the global `upload_options` (the `or` is
lazy: the global accessor only runs when the per-collection value is falsy);
if the result is still falsy, raise `ValueError` naming the collection.  The
source does not type-check the per-collection value, so a truthy non-dict is
returned as is. -/
def get_collection_upload_options (p : Dict) (collection_name : String) :
    Except PyError JValue := do
  let copts ← get_collection_options p collection_name
  let per := AList.getD copts "upload_options" (.obj [])
  if per.truthy then .ok per
  else do
    let guo ← global_upload_options p
    if (JValue.obj guo).truthy then .ok (.obj guo)
    else .error (.valueError
        ("No upload options found for collection '" ++ collection_name ++ "'"))

/-- The message of the error `validate` raises when neither collection
configuration is present. -/
def missing_config_msg : String :=
  "'collection_matchers' or the legacy 'upload_options.collections' must be provided"

/-- The message of the error `validate` raises when both collection
configurations are present. -/
def mutually_exclusive_msg : String :=
  "A payload must not contain both 'collection_matchers' and the legacy 'upload_options.collections'"

/-- The final loop of `validate`: every collection named by a matcher must
resolve to upload options.  `matcher["collection_name"]` raises `KeyError`
when absent; collection names are strings (the `collection_options` keys they
are compared with are JSON object keys). -/
def check_matchers_upload_options (p : Dict) : List JValue → Except PyError Unit
  | [] => .ok ()
  | m :: rest =>
    match m with
    | .obj d =>
      match AList.get? d "collection_name" with
      | some (.str name) => do
        let _ ← get_collection_upload_options p name
        check_matchers_upload_options p rest
      | some _ => .error (.typeError "collection_name must be type str")
      | none => .error (.keyError "collection_name")
    | _ => .error (.typeError "matcher must be type dict")

/-- `Payload.validate`: run every accessor (forcing its shape checks), then
require that at least one and at most one of the matcher list and the legacy
mapping is non-empty, then resolve upload options for every matcher's
collection. -/
def validate (p : Dict) : Except PyError Unit := do
  let _ ← process_definition p
  let _ ← workflow_options p
  let _ ← task_options_dict p
  let _ ← global_upload_options p
  let cm ← collection_mapping p
  let _ ← items_as_dicts p
  let matchers ← collection_matchers p
  let _ ← collection_options p
  if matchers.isEmpty && cm.isEmpty then
    .error (.valueError missing_config_msg)
  else if !matchers.isEmpty && !cm.isEmpty then
    .error (.valueError mutually_exclusive_msg)
  else
    check_matchers_upload_options p matchers

end Payload

/-! ## The task layer (`src/stactask/task.py`)

Only the configuration-resolution, post-processing and collection-assignment
logic is modelled.  Working-directory management, asset download/upload and
logging are external I/O and out of the embedding, as is the `href`/`url`
payload indirection in `handler` (it dereferences external storage). -/

namespace Task

/-- `Task.task_options`: `self.payload.task_options_dict.get(self.name, {})`. -/
def task_options (p : Dict) (name : String) : Except PyError Dict := do
  let d ← Payload.task_options_dict p
  .ok ((AList.get? d name).getD [])

/-- `Task.parameters`: `{**self.payload.workflow_options, **self.task_options}`. -/
def parameters (p : Dict) (name : String) : Except PyError Dict := do
  let w ← Payload.workflow_options p
  let t ← task_options p name
  .ok (AList.merge w t)

/-- The body of the `assign_collections` loop for one record:
`if coll := utils_find_collection(collection_config, item): item["collection"] = coll`.
The walrus result is tested for truthiness, so the field is set only when a
non-`None`, non-empty collection name comes back; item assignment on a
non-dict record raises `TypeError`. -/
def assign_one (jp : MatchEngine) (collection_config : JValue) (item : JValue) :
    Except PyError JValue := do
  let coll ← find_collection jp collection_config item
  match coll with
  | some s =>
    if s.isEmpty then .ok item
    else
      match item with
      | .obj d => .ok (.obj (AList.insert d "collection" (.str s)))
      | _ => .error (.typeError "item must support item assignment")
  | none => .ok item

/-- The `assign_collections` loop over `self.payload["features"]`, each record
updated in order. -/
def assign_items (jp : MatchEngine) (collection_config : JValue) :
    List JValue → Except PyError (List JValue)
  | [] => .ok []
  | item :: rest => do
    let item' ← assign_one jp collection_config item
    let rest' ← assign_items jp collection_config rest
    .ok (item' :: rest')

/-- `Task.assign_collections`: choose the matcher list when it is truthy, else
the legacy mapping, and update each record of `self.payload["features"]` in
place (a missing `features` key raises `KeyError`; the field is a list when
the loop runs). -/
def assign_collections (jp : MatchEngine) (p : Dict) : Except PyError Dict := do
  let matchers ← Payload.collection_matchers p
  let config ← (if !matchers.isEmpty then .ok (.arr matchers)
    else do
      let cm ← Payload.collection_mapping p
      .ok (JValue.obj cm))
  match AList.get? p "features" with
  | none => .error (.keyError "features")
  | some (.arr items) => do
    let items' ← assign_items jp config items
    .ok (AList.insert p "features" (.arr items'))
  | some _ => .error (.typeError "'features' must be type list")

/-- The sort key check for `item["stac_extensions"].sort()`: STAC extension
identifiers are URI strings; `list.sort` raises `TypeError` when elements are
not mutually comparable, so the embedding requires string elements. -/
def exts_as_strings : List JValue → Except PyError (List String)
  | [] => .ok []
  | .str s :: rest => do
    let tail ← exts_as_strings rest
    .ok (s :: tail)
  | _ :: _ => .error (.typeError "stac_extensions elements must be comparable strings")

/-- Lexicographic comparison of character sequences by code point: the order
Python's `list.sort` applies to strings. -/
def charListLe : List Char → List Char → Bool
  | [], _ => true
  | _ :: _, [] => false
  | a :: as, b :: bs => if a < b then true else if b < a then false else charListLe as bs

/-- Ascending lexicographic order on strings, by code point. -/
def strLe (a b : String) : Bool := charListLe a.data b.data

/-- Ascending lexicographic sort of the extension list (`list.sort()`). -/
def sort_extensions (l : List String) : List String :=
  List.insertionSort (fun a b => strLe a b = true) l

/-- `Task._post_process_item`: run the overridable `post_process_item` hook
(the default returns the item unchanged); the hook mutates the item in place
and its return value is discarded, so the hook's effect is the item's new
state.  Then, when the item carries `stac_extensions`, require it to be a
list (else `TypeError` naming the field) and re-sort it ascending. -/
def post_process_item_internal (hook : Dict → Dict) (item : Dict) :
    Except PyError Dict :=
  match AList.get? (hook item) "stac_extensions" with
  | none => .ok (hook item)
  | some (.arr exts) => do
    let strs ← exts_as_strings exts
    .ok (AList.insert (hook item) "stac_extensions"
        (.arr ((sort_extensions strs).map .str)))
  | some _ => .error (.typeError "stac_extensions must be type list")

/-- The item loop of `handler`: post-process each output record of `process`
in order. -/
def post_process_items (hook : Dict → Dict) : List Dict → Except PyError (List Dict)
  | [] => .ok []
  | item :: rest => do
    let item' ← post_process_item_internal hook item
    let rest' ← post_process_items hook rest
    .ok (item' :: rest')

/-- A concrete task class: its registered name, the overridable `validate`
hook (the base implementation returns `True`), the abstract `process` entry
point, and the overridable `post_process_item` hook (the base implementation
returns the item unchanged). -/
structure TaskClass where
  name : String
  validate_hook : Dict → Bool := fun _ => true
  process : Dict → List Dict
  post_process_hook : Dict → Dict := fun item => item

/-- The validation prefix of `Task.__init__`: `self.payload = Payload(payload)`
then `self.payload.validate()` unconditionally, then
`if not skip_validation and validate and not self.validate(): raise
FailedValidation()`.  The remainder of the constructor (upload gating and the
working directory) is filesystem state outside the embedding. -/
def init (tc : TaskClass) (payload : Dict) (skip_validation : Bool)
    (validate : Bool) : Except PyError Dict := do
  let _ ← Payload.validate payload
  if !skip_validation && validate && !(tc.validate_hook payload) then
    .error .failedValidation
  else
    .ok payload

/-- `Task.handler`: construct the task (validating), run `process` with the
resolved parameters, post-process each output item, write the items back to
`features`, assign collections, and return the payload.  The `href`/`url`
indirection branch reads external storage and is out of the embedding. -/
def handler (jp : MatchEngine) (tc : TaskClass) (payload : Dict)
    (skip_validation : Bool) (validate : Bool) : Except PyError Dict := do
  let task_payload ← init tc payload skip_validation validate
  let params ← parameters task_payload tc.name
  let items' ← post_process_items tc.post_process_hook (tc.process params)
  let p' := AList.insert task_payload "features" (.arr (items'.map .obj))
  assign_collections jp p'

end Task

/-! ## Specification-side description of the current matcher schema

Used by refinement claims: a typed matcher list as the spec draws it, its
payload encoding, and the spec's "first matcher in list order that matches"
rule, to be compared with the resolver translated from the source. -/

/-- A well-formed current-schema matcher: `jsonpath` carries a pattern and a
collection name, `catch_all` only a collection name. -/
inductive Matcher where
  | jsonpath (pattern : String) (collection_name : String) : Matcher
  | catch_all (collection_name : String) : Matcher

/-- The payload encoding of a well-formed matcher. -/
def Matcher.encode : Matcher → JValue
  | .jsonpath pat cn =>
    .obj [("type", .str "jsonpath"), ("pattern", .str pat), ("collection_name", .str cn)]
  | .catch_all cn => .obj [("type", .str "catch_all"), ("collection_name", .str cn)]

/-- Whether a matcher matches a record: a `jsonpath` matcher matches when its
pattern selects exactly one node, a `catch_all` matcher matches always. -/
def Matcher.matches (jp : MatchEngine) (item : JValue) : Matcher → Bool
  | .jsonpath pat _ => stac_jsonpath_match jp item pat
  | .catch_all _ => true

/-- The collection name a matcher names. -/
def Matcher.collection : Matcher → String
  | .jsonpath _ cn => cn
  | .catch_all cn => cn

/-- The spec's resolution rule over well-formed matchers: the first matcher in
list order that matches wins; an exhausted list yields no collection. -/
def spec_first_match (jp : MatchEngine) (item : JValue) : List Matcher → Option String
  | [] => none
  | m :: rest =>
    if m.matches jp item then some m.collection else spec_first_match jp item rest

/-! ## Concrete engines and payloads used by the claims and witnesses -/

/-- The payload of the spec's precedence example: workflow option `a = 1`,
task options `a = 2, b = 3`. -/
def c2_payload : Dict :=
  [("process", .arr [.obj [("workflow_options", .obj [("a", .num 1)]),
    ("tasks", .obj [("mytask", .obj [("a", .num 2), ("b", .num 3)])])]])]

/-- A payload configuring neither `collection_matchers` nor the legacy
`upload_options.collections` (the shape of the repository's unused
`payload_missing_both_collection_configs` test fixture). -/
def c3_payload_neither : Dict :=
  [("features", .arr [.obj [("id", .str "test-item"), ("type", .str "Feature")]]),
   ("process", .arr [.obj [
     ("workflow", .str "test-workflow"),
     ("upload_options", .obj [("path_template", .str "/test")]),
     ("tasks", .obj [("test-task", .obj [])])]])]

/-- A payload carrying both a non-empty matcher list and a non-empty legacy
mapping. -/
def c3_payload_both : Dict :=
  [("features", .arr []),
   ("process", .arr [.obj [
     ("upload_options", .obj [("path_template", .str "/test"),
       ("collections", .obj [("test-collection", .str "$.id")])]),
     ("collection_matchers", .arr [.obj [("type", .str "jsonpath"),
       ("pattern", .str "$.id"), ("collection_name", .str "test-collection")]])]])]

/-- A payload carrying only the legacy mapping. -/
def c3_payload_legacy : Dict :=
  [("features", .arr []),
   ("process", .arr [.obj [
     ("upload_options", .obj [("path_template", .str "/legacy"),
       ("collections", .obj [("sentinel-2", .str "$.id")])])]])]

/-- The spec's fallback example: global upload options only. -/
def c6_payload_global_only : Dict :=
  [("process", .arr [.obj [("upload_options", .obj [("path_template", .str "/g")])]])]

/-- The spec's override example: a per-collection `upload_options` for `C`. -/
def c6_payload_override : Dict :=
  [("process", .arr [.obj [
    ("upload_options", .obj [("path_template", .str "/g")]),
    ("collection_options", .obj [("C", .obj [("upload_options",
      .obj [("path_template", .str "/c")])])])]])]

/-- A payload with no upload options at all. -/
def c6_payload_empty : Dict := []

/-- A post-process hook that attaches two extensions out of order. -/
def c7_hook (item : Dict) : Dict :=
  AList.insert item "stac_extensions" (.arr [.str "b", .str "a"])

/-- The payload encoding of a well-formed deprecated tasks-list entry
`{"name": ..., "parameters": {...}}`. -/
def task_cfg_encode (e : String × Dict) : JValue :=
  .obj [("name", .str e.1), ("parameters", .obj e.2)]

/-- A payload whose process definition carries the deprecated list form of
`tasks`. -/
def tasks_list_payload (cfgs : List JValue) : Dict :=
  [("process", .arr [.obj [("tasks", .arr cfgs)]])]

/-- A deprecated tasks list naming task `x` twice. -/
def c4_payload : Dict := tasks_list_payload
  [task_cfg_encode ("x", [("p", .num 1)]), task_cfg_encode ("x", [("p", .num 2)])]

/-- A minimal concrete task class: default hooks, empty output. -/
def c10_task : Task.TaskClass := { name := "t", process := fun _ => [] }

/-- A structurally invalid payload: `process` is a string. -/
def c10_bad_payload : Dict := [("process", .str "nope")]

/-- A structurally valid legacy payload. -/
def c10_ok_payload : Dict :=
  [("process", .arr [.obj [("upload_options", .obj [("path_template", .str "/x"),
    ("collections", .obj [("c", .str "$.id")])])]])]

/-- A JSONPath engine that never matches. -/
def c9_jp : MatchEngine := fun _ _ => 0

/-- A catch-all matcher whose collection name is the empty string. -/
def c9_matchers : List JValue :=
  [.obj [("type", .str "catch_all"), ("collection_name", .str "")]]

/-- A payload whose only matcher names the empty-string collection. -/
def c9_payload : Dict :=
  [("process", .arr [.obj [("collection_matchers", .arr c9_matchers)]]),
   ("features", .arr [.obj [("id", .str "x")]])]

/-- A payload with a catch-all matcher naming collection `D`. -/
def c9w_payload : Dict :=
  [("process", .arr [.obj [("collection_matchers",
      .arr [.obj [("type", .str "catch_all"), ("collection_name", .str "D")]])]]),
   ("features", .arr [.obj [("id", .str "i")]])]

/-- A JSONPath engine with one pattern, `colA`, selecting exactly one node
precisely when the record's `collection` field equals `A`. -/
def c8_jp : MatchEngine := fun item pat =>
  if pat = "colA" then
    match item with
    | .obj d =>
      match AList.get? d "collection" with
      | some (.str s) => if s = "A" then 1 else 0
      | _ => 0
    | _ => 0
  else 0

/-- A payload whose record currently has `collection = A`. -/
def c8_payload : Dict :=
  [("process", .arr [.obj [("collection_matchers", .arr [
      .obj [("type", .str "jsonpath"), ("pattern", .str "colA"),
        ("collection_name", .str "B")],
      .obj [("type", .str "catch_all"), ("collection_name", .str "C")]])]]),
   ("features", .arr [.obj [("collection", .str "A")]])]

/-- The payload after one assignment run: the record has `collection = B`. -/
def c8_once : Dict :=
  [("process", .arr [.obj [("collection_matchers", .arr [
      .obj [("type", .str "jsonpath"), ("pattern", .str "colA"),
        ("collection_name", .str "B")],
      .obj [("type", .str "catch_all"), ("collection_name", .str "C")]])]]),
   ("features", .arr [.obj [("collection", .str "B")]])]

/-- The payload after a second assignment run: `collection = C`. -/
def c8_twice : Dict :=
  [("process", .arr [.obj [("collection_matchers", .arr [
      .obj [("type", .str "jsonpath"), ("pattern", .str "colA"),
        ("collection_name", .str "B")],
      .obj [("type", .str "catch_all"), ("collection_name", .str "C")]])]]),
   ("features", .arr [.obj [("collection", .str "C")]])]

/-- A catch-all payload for the idempotence witness. -/
def c8w_payload : Dict :=
  [("process", .arr [.obj [("collection_matchers",
      .arr [.obj [("type", .str "catch_all"), ("collection_name", .str "E")]])]]),
   ("features", .arr [.obj [("id", .str "y")]])]

/-- The witness payload after assignment. -/
def c8w_once : Dict :=
  [("process", .arr [.obj [("collection_matchers",
      .arr [.obj [("type", .str "catch_all"), ("collection_name", .str "E")]])]]),
   ("features", .arr [.obj [("id", .str "y"), ("collection", .str "E")]])]

/-! ## Lemmas about dict lookup, insertion and merge -/

namespace AList

variable {α : Type}

/-- A key outside the key list never resolves. -/
theorem get?_eq_none_of_not_mem_keys {d : AList α} {k : String} (h : k ∉ keys d) :
    get? d k = none := by
  induction d with
  | nil => rfl
  | cons e rest ih =>
    simp only [keys, List.map_cons, List.mem_cons, not_or] at h
    have he : ¬ e.1 = k := fun hh => h.1 hh.symm
    simp only [get?, if_neg he]
    exact ih (by simpa [keys] using h.2)

/-- `contains` agrees with key membership. -/
theorem not_mem_keys_of_contains_eq_false {d : AList α} {k : String}
    (h : contains d k = false) : k ∉ keys d := by
  simp only [contains, List.any_eq_false, beq_iff_eq] at h
  simp only [keys, List.mem_map]
  rintro ⟨e, he, hk⟩
  exact h e he hk

/-- Lookup after the in-place update branch of `insert`. -/
theorem get?_replace (d : AList α) (k : String) (v : α) (k' : String) :
    get? (d.map (fun e => if e.1 = k then (k, v) else e)) k'
      = if k' = k then (if contains d k then some v else none) else get? d k' := by
  induction d with
  | nil => by_cases hk : k' = k <;> simp [get?, contains, hk]
  | cons e rest ih =>
    by_cases he : e.1 = k
    · by_cases hk : k' = k
      · subst hk
        simp [get?, contains, he]
      · have hek : ¬ e.1 = k' := fun hh => hk (hh.symm.trans he)
        have hkk : ¬ k = k' := fun hh => hk hh.symm
        simp [get?, he, hek, hkk, hk, ih]
    · by_cases hk : k' = k
      · subst hk
        have hb : (e.1 == k') = false := by simpa using he
        simp [get?, contains, ih, he]
        rw [hb, Bool.false_or]
      · simp [get?, ih, he, hk]

/-- Lookup after the append branch of `insert`. -/
theorem get?_append_single (d : AList α) (k : String) (v : α) (k' : String) :
    get? (d ++ [(k, v)]) k' = (get? d k').or (if k' = k then some v else none) := by
  induction d with
  | nil =>
    by_cases hk : k' = k
    · subst hk; simp [get?, Option.or]
    · have : ¬ k = k' := fun h => hk h.symm
      simp [get?, this, hk, Option.or]
  | cons e rest ih =>
    by_cases he : e.1 = k'
    · simp [get?, he, Option.or]
    · simp [get?, he, ih]

/-- Lookup after insertion: the inserted key resolves to the new value, every
other key is untouched. -/
theorem get?_insert (d : AList α) (k : String) (v : α) (k' : String) :
    get? (insert d k v) k' = if k' = k then some v else get? d k' := by
  by_cases hc : contains d k
  · rw [insert, if_pos hc, get?_replace]
    by_cases hk : k' = k <;> simp [hk, hc]
  · rw [insert, if_neg hc, get?_append_single]
    by_cases hk : k' = k
    · subst hk
      rw [get?_eq_none_of_not_mem_keys
        (not_mem_keys_of_contains_eq_false (Bool.eq_false_iff.mpr hc))]
      simp [Option.or]
    · rw [if_neg hk, if_neg hk]
      cases get? d k' <;> rfl

/-- Lookup in a shallow merge: the overriding dict wins on collision, the base
dict answers otherwise.  The overriding dict is a Python dict, so its keys are
unique. -/
theorem get?_merge (k : String) : ∀ (b a : AList α), (keys b).Nodup →
    get? (merge a b) k = (get? b k).or (get? a k)
  | [], a, _ => by simp [merge, get?, Option.or]
  | e :: b, a, h => by
    have hr : merge a (e :: b) = merge (insert a e.1 e.2) b := rfl
    have hkk : keys (e :: b) = e.1 :: keys b := rfl
    rw [hkk, List.nodup_cons] at h
    have ih := get?_merge k b (insert a e.1 e.2) h.2
    rw [hr, ih, get?_insert]
    by_cases hke : k = e.1
    · subst hke
      rw [get?_eq_none_of_not_mem_keys h.1]
      simp [get?, Option.or]
    · have : ¬ e.1 = k := fun hh => hke hh.symm
      simp [get?, this, hke, Option.or]

end AList

/-! ## Lemmas about the resolver -/

/-- On encoded well-formed matchers, the source's resolver loop computes the
spec's first-match rule. -/
theorem find_from_matchers_encode (jp : MatchEngine) (item : JValue) :
    ∀ ms : List Matcher,
      find_collection_from_matchers jp (ms.map Matcher.encode) item
        = .ok (spec_first_match jp item ms)
  | [] => rfl
  | m :: rest => by
    cases m with
    | jsonpath pat cn =>
      by_cases h : stac_jsonpath_match jp item pat
      · simp [find_collection_from_matchers, Matcher.encode, AList.get?,
          spec_first_match, Matcher.matches, Matcher.collection, as_collection_name, h]
      · simp [find_collection_from_matchers, Matcher.encode, AList.get?,
          spec_first_match, Matcher.matches, Matcher.collection, h,
          find_from_matchers_encode jp item rest]
    | catch_all cn =>
      simp [find_collection_from_matchers, Matcher.encode, AList.get?,
        spec_first_match, Matcher.matches, Matcher.collection, as_collection_name]

/-- A prefix of encoded well-formed matchers is transparent when none of them
matches, and decides the result on its own when one does — the tail is never
reached. -/
theorem find_from_matchers_append (jp : MatchEngine) (item : JValue) (l : List JValue) :
    ∀ ms : List Matcher,
      (spec_first_match jp item ms = none →
        find_collection_from_matchers jp (ms.map Matcher.encode ++ l) item
          = find_collection_from_matchers jp l item) ∧
      (∀ c, spec_first_match jp item ms = some c →
        find_collection_from_matchers jp (ms.map Matcher.encode ++ l) item = .ok (some c))
  | [] => by simp [spec_first_match]
  | m :: rest => by
    have ih := find_from_matchers_append jp item l rest
    cases m with
    | jsonpath pat cn =>
      by_cases h : stac_jsonpath_match jp item pat
      · constructor
        · intro hnone
          simp [spec_first_match, Matcher.matches, h] at hnone
        · intro c hc
          simp [spec_first_match, Matcher.matches, Matcher.collection, h] at hc
          simp [find_collection_from_matchers, Matcher.encode, AList.get?,
            as_collection_name, h, hc]
      · constructor
        · intro hnone
          simp [spec_first_match, Matcher.matches, h] at hnone
          simp [find_collection_from_matchers, Matcher.encode, AList.get?, h,
            ih.1 hnone]
        · intro c hc
          simp [spec_first_match, Matcher.matches, h] at hc
          simp [find_collection_from_matchers, Matcher.encode, AList.get?, h,
            ih.2 c hc]
    | catch_all cn =>
      constructor
      · intro hnone
        simp [spec_first_match, Matcher.matches] at hnone
      · intro c hc
        simp [spec_first_match, Matcher.matches, Matcher.collection] at hc
        simp [find_collection_from_matchers, Matcher.encode, AList.get?,
          as_collection_name, hc]

/-! ## Claims -/

/-- C1: for every matcher list of the current schema and every record,
`find_collection` returns the collection name of the first matcher in list
order that matches (`jsonpath` matches when its pattern selects exactly one
node, `catch_all` matches unconditionally), `.ok none` when the list is
exhausted without a match, and `.ok none` immediately for an empty/falsy
configuration; first match in order wins, so an earlier `catch_all` shadows
every later matcher. -/
theorem c1_find_collection_first_match_wins (jp : MatchEngine) (ms : List Matcher)
    (item config : JValue) :
    find_collection jp (.arr (ms.map Matcher.encode)) item
      = .ok (spec_first_match jp item ms) ∧
    (config.truthy = false → find_collection jp config item = .ok none) ∧
    (∀ cn rest, find_collection jp
        (.arr ((Matcher.catch_all cn :: rest).map Matcher.encode)) item = .ok (some cn)) := by
  refine ⟨?_, ?_, ?_⟩
  · cases ms with
    | nil => rfl
    | cons m rest =>
      simp only [find_collection, JValue.truthy, List.map_cons, List.isEmpty_cons,
        Bool.not_false, if_neg]
      exact find_from_matchers_encode jp item (m :: rest)
  · intro h
    simp [find_collection, h]
  · intro cn rest
    have h := find_from_matchers_encode jp item (Matcher.catch_all cn :: rest)
    have h2 : spec_first_match jp item (Matcher.catch_all cn :: rest) = some cn := by
      simp [spec_first_match, Matcher.matches, Matcher.collection]
    exact h.trans (by rw [h2])

/-- Witness for C1 at a concrete engine, matcher list and record. -/
theorem c1_witness :
    find_collection (fun _ _ => 0)
      (.arr [Matcher.encode (.catch_all "default"), Matcher.encode (.jsonpath "p" "A")])
      (.obj []) = .ok (some "default") ∧
    find_collection (fun _ _ => 0) .null (.obj []) = .ok none := by
  have h := c1_find_collection_first_match_wins (fun _ _ => 0) [] (.obj []) .null
  exact ⟨h.2.2 "default" [Matcher.jsonpath "p" "A"], h.2.1 rfl⟩

/-- C5: reaching a matcher whose type is not recognized raises the
unknown-matcher-type error naming the value — it is never skipped — but the
error is raised only if iteration actually reaches that matcher: when an
earlier matcher matches first, the result is that matcher's collection and no
error is raised. -/
theorem c5_unknown_matcher_type_fatal (jp : MatchEngine) (ms : List Matcher)
    (item : JValue) (t cn : String) (rest : List JValue)
    (ht1 : t ≠ "jsonpath") (ht2 : t ≠ "catch_all") :
    (spec_first_match jp item ms = none →
      find_collection jp (.arr (ms.map Matcher.encode
          ++ JValue.obj [("type", .str t), ("collection_name", .str cn)] :: rest)) item
        = .error (.valueError ("Unknown matcher type: " ++ t))) ∧
    (∀ c, spec_first_match jp item ms = some c →
      find_collection jp (.arr (ms.map Matcher.encode
          ++ JValue.obj [("type", .str t), ("collection_name", .str cn)] :: rest)) item
        = .ok (some c)) := by
  have happ := find_from_matchers_append jp item
    (JValue.obj [("type", .str t), ("collection_name", .str cn)] :: rest) ms
  have htr : (JValue.arr (ms.map Matcher.encode
      ++ JValue.obj [("type", .str t), ("collection_name", .str cn)] :: rest)).truthy
      = true := by
    simp [JValue.truthy]
  constructor
  · intro hnone
    simp only [find_collection, htr, Bool.not_true, if_neg, Bool.false_eq_true,
      not_false_iff]
    rw [happ.1 hnone]
    simp [find_collection_from_matchers, AList.get?, ht1, ht2]
  · intro c hc
    simp only [find_collection, htr, Bool.not_true, if_neg, Bool.false_eq_true,
      not_false_iff]
    exact happ.2 c hc

/-- Witness for C5: an unreached bogus matcher is harmless, a reached one is
fatal. -/
theorem c5_witness :
    find_collection (fun _ _ => 0)
      (.arr [Matcher.encode (.jsonpath "p" "A"),
        JValue.obj [("type", .str "bogus"), ("collection_name", .str "X")]])
      (.obj []) = .error (.valueError "Unknown matcher type: bogus") ∧
    find_collection (fun _ _ => 1)
      (.arr [Matcher.encode (.catch_all "A"),
        JValue.obj [("type", .str "bogus"), ("collection_name", .str "X")]])
      (.obj []) = .ok (some "A") := by
  have h1 := c5_unknown_matcher_type_fatal (fun _ _ => 0) [Matcher.jsonpath "p" "A"]
    (.obj []) "bogus" "X" [] (by decide) (by decide)
  have h2 := c5_unknown_matcher_type_fatal (fun _ _ => 1) [Matcher.catch_all "A"]
    (.obj []) "bogus" "X" [] (by decide) (by decide)
  exact ⟨h1.1 rfl, h2.2 "A" rfl⟩

/-- C2: for every task name, the resolved parameter set is the shallow merge
of workflow-level options and task-specific options, where task options
strictly override workflow options on key collision; when both are empty the
result is the empty mapping. -/
theorem c2_parameters_shallow_merge (p : Dict) (T : String) (w : Dict)
    (topts : AList Dict)
    (hw : Payload.workflow_options p = .ok w)
    (ht : Payload.task_options_dict p = .ok topts)
    (hnd : (AList.keys ((AList.get? topts T).getD [])).Nodup) :
    Task.parameters p T = .ok (AList.merge w ((AList.get? topts T).getD [])) ∧
    (∀ k, AList.get? (AList.merge w ((AList.get? topts T).getD [])) k
        = (AList.get? ((AList.get? topts T).getD []) k).or (AList.get? w k)) ∧
    (w = [] → (AList.get? topts T).getD [] = [] →
      AList.merge w ((AList.get? topts T).getD []) = []) := by
  refine ⟨?_, ?_, ?_⟩
  · simp only [Task.parameters, Task.task_options, hw, ht]
    rfl
  · intro k
    exact AList.get?_merge k _ w hnd
  · intro h1 h2
    rw [h1, h2]
    rfl

/-- Witness for C2: on the spec's example the resolved parameters are
`a = 2, b = 3`. -/
theorem c2_witness :
    Task.parameters c2_payload "mytask" = .ok [("a", .num 2), ("b", .num 3)] := by
  have h := c2_parameters_shallow_merge c2_payload "mytask" [("a", .num 1)]
    [("mytask", [("a", .num 2), ("b", .num 3)])] rfl rfl (by decide)
  exact h.1

/-! ## Lemmas about the configuration view's error flow -/

/-- Bind on a successful `Except` computation runs the continuation. -/
@[simp] theorem ok_bind {ε α β : Type} (a : α) (f : α → Except ε β) :
    (Except.ok a : Except ε α) >>= f = f a := rfl

/-- Bind on a failed `Except` computation propagates the error. -/
@[simp] theorem error_bind {ε α β : Type} (e : ε) (f : α → Except ε β) :
    (Except.error e : Except ε α) >>= f = .error e := rfl

/-- The missing-upload-options message never coincides with the
mutual-exclusion message, whatever collection name it carries. -/
theorem upload_msg_ne_mutual (name : String) :
    ("No upload options found for collection '" ++ name ++ "'")
      ≠ Payload.mutually_exclusive_msg :=
  fun h => Bool.noConfusion
    (congrArg (fun s : String => s.data.head? == some 'A') h : false = true)

/-- `process_definition` only fails with a `TypeError`. -/
theorem process_definition_error_shape (p : Dict) (e : PyError)
    (h : Payload.process_definition p = .error e) : ∃ msg, e = .typeError msg := by
  unfold Payload.process_definition at h
  split at h
  · exact nomatch h
  · exact nomatch h
  · split at h
    · exact nomatch h
    · injection h with h
      exact ⟨_, h.symm⟩
  · injection h with h
    exact ⟨_, h.symm⟩

/-- `collection_options` only fails with a `TypeError`. -/
theorem collection_options_error_shape (p : Dict) (e : PyError)
    (h : Payload.collection_options p = .error e) : ∃ msg, e = .typeError msg := by
  unfold Payload.collection_options at h
  cases hpd : Payload.process_definition p with
  | error e' =>
    rw [hpd] at h
    simp only [error_bind] at h
    injection h with h
    exact h ▸ process_definition_error_shape p e' hpd
  | ok pd =>
    rw [hpd] at h
    simp only [ok_bind] at h
    split at h
    · exact nomatch h
    · injection h with h
      exact ⟨_, h.symm⟩

/-- `get_collection_options` only fails with a `TypeError`. -/
theorem get_collection_options_error_shape (p : Dict) (name : String) (e : PyError)
    (h : Payload.get_collection_options p name = .error e) :
    ∃ msg, e = .typeError msg := by
  unfold Payload.get_collection_options at h
  cases hco : Payload.collection_options p with
  | error e' =>
    rw [hco] at h
    simp only [error_bind] at h
    injection h with h
    exact h ▸ collection_options_error_shape p e' hco
  | ok co =>
    rw [hco] at h
    simp only [ok_bind] at h
    split at h
    · exact nomatch h
    · injection h with h
      exact ⟨_, h.symm⟩

/-- `global_upload_options` only fails with a `TypeError`. -/
theorem global_upload_options_error_shape (p : Dict) (e : PyError)
    (h : Payload.global_upload_options p = .error e) : ∃ msg, e = .typeError msg := by
  unfold Payload.global_upload_options at h
  cases hpd : Payload.process_definition p with
  | error e' =>
    rw [hpd] at h
    simp only [error_bind] at h
    injection h with h
    exact h ▸ process_definition_error_shape p e' hpd
  | ok pd =>
    rw [hpd] at h
    simp only [ok_bind] at h
    split at h
    · exact nomatch h
    · injection h with h
      exact ⟨_, h.symm⟩

/-- The only `ValueError` that `get_collection_upload_options` raises is the
missing-upload-options error naming its collection. -/
theorem get_cuo_error_shape (p : Dict) (name : String) (e : PyError)
    (h : Payload.get_collection_upload_options p name = .error e) :
    (∃ msg, e = .typeError msg) ∨
      e = .valueError ("No upload options found for collection '" ++ name ++ "'") := by
  unfold Payload.get_collection_upload_options at h
  cases hco : Payload.get_collection_options p name with
  | error e' =>
    rw [hco] at h
    simp only [error_bind] at h
    injection h with h
    exact .inl (h ▸ get_collection_options_error_shape p name e' hco)
  | ok co =>
    rw [hco] at h
    simp only [ok_bind] at h
    split at h
    · exact nomatch h
    · cases hg : Payload.global_upload_options p with
      | error e' =>
        rw [hg] at h
        simp only [error_bind] at h
        injection h with h
        exact .inl (h ▸ global_upload_options_error_shape p e' hg)
      | ok g =>
        rw [hg] at h
        simp only [ok_bind] at h
        split at h
        · exact nomatch h
        · injection h with h
          exact .inr h.symm

/-- `get_collection_upload_options` never fails with the mutual-exclusion
error. -/
theorem get_cuo_ne_mutual (p : Dict) (name : String) :
    Payload.get_collection_upload_options p name
      ≠ .error (.valueError Payload.mutually_exclusive_msg) := by
  intro h
  rcases get_cuo_error_shape p name _ h with ⟨msg, hmsg⟩ | hval
  · exact PyError.noConfusion hmsg
  · refine upload_msg_ne_mutual name ?_
    injection hval with hh
    exact hh.symm

/-- The per-matcher upload-options loop never fails with the mutual-exclusion
error. -/
theorem check_matchers_ne_mutual (p : Dict) : ∀ ms : List JValue,
    Payload.check_matchers_upload_options p ms
      ≠ .error (.valueError Payload.mutually_exclusive_msg)
  | [] => fun h => nomatch h
  | m :: rest => by
    intro h
    unfold Payload.check_matchers_upload_options at h
    split at h
    · split at h
      · rename_i d name hname
        cases hc : Payload.get_collection_upload_options p name with
        | error e =>
          rw [hc] at h
          simp only [error_bind] at h
          injection h with h
          exact get_cuo_ne_mutual p name (h ▸ hc)
        | ok o =>
          rw [hc] at h
          simp only [ok_bind] at h
          exact check_matchers_ne_mutual p rest h
      · exact nomatch h
      · exact nomatch h
    · exact nomatch h

/-- With every accessor succeeding, `validate` reduces to the two exclusion
checks followed by the per-matcher upload-options loop. -/
theorem validate_eq_core (p : Dict) (pd w g cm co : Dict) (td : AList Dict)
    (items ms : List JValue)
    (hpd : Payload.process_definition p = .ok pd)
    (hw : Payload.workflow_options p = .ok w)
    (ht : Payload.task_options_dict p = .ok td)
    (hg : Payload.global_upload_options p = .ok g)
    (hcm : Payload.collection_mapping p = .ok cm)
    (hi : Payload.items_as_dicts p = .ok items)
    (hm : Payload.collection_matchers p = .ok ms)
    (hco : Payload.collection_options p = .ok co) :
    Payload.validate p =
      if ms.isEmpty && cm.isEmpty then .error (.valueError Payload.missing_config_msg)
      else if !ms.isEmpty && !cm.isEmpty then
        .error (.valueError Payload.mutually_exclusive_msg)
      else Payload.check_matchers_upload_options p ms := by
  unfold Payload.validate
  rw [hpd, hw, ht, hg, hcm, hi, hm, hco]
  rfl

/-- C3 (amended): under a structurally well-shaped payload, `validate` raises
the mutual-exclusion error exactly when both the matcher list and the legacy
mapping are non-empty; with only one of them configured the mutual-exclusion
check passes (legacy-only payloads validate outright, matcher-only payloads
proceed to the per-matcher upload-options check); with neither configured
`validate` fails with the missing-configuration error rather than passing as a
no-op. -/
theorem c3_mutual_exclusion (p : Dict) (pd w g cm co : Dict) (td : AList Dict)
    (items ms : List JValue)
    (hpd : Payload.process_definition p = .ok pd)
    (hw : Payload.workflow_options p = .ok w)
    (ht : Payload.task_options_dict p = .ok td)
    (hg : Payload.global_upload_options p = .ok g)
    (hcm : Payload.collection_mapping p = .ok cm)
    (hi : Payload.items_as_dicts p = .ok items)
    (hm : Payload.collection_matchers p = .ok ms)
    (hco : Payload.collection_options p = .ok co) :
    (Payload.validate p = .error (.valueError Payload.mutually_exclusive_msg)
        ↔ (ms ≠ [] ∧ cm ≠ [])) ∧
    (ms = [] → cm ≠ [] → Payload.validate p = .ok ()) ∧
    (ms ≠ [] → cm = [] →
      Payload.validate p = Payload.check_matchers_upload_options p ms) ∧
    (ms = [] → cm = [] →
      Payload.validate p = .error (.valueError Payload.missing_config_msg)) := by
  have hv := validate_eq_core p pd w g cm co td items ms hpd hw ht hg hcm hi hm hco
  have hcase2 : ms = [] → cm ≠ [] → Payload.validate p = .ok () := by
    intro hms hcm2
    subst hms
    cases cm with
    | nil => exact absurd rfl hcm2
    | cons e rest => rw [hv]; rfl
  have hcase3 : ms ≠ [] → cm = [] →
      Payload.validate p = Payload.check_matchers_upload_options p ms := by
    intro hms hcm2
    subst hcm2
    cases ms with
    | nil => exact absurd rfl hms
    | cons e rest => rw [hv]; rfl
  have hcase4 : ms = [] → cm = [] →
      Payload.validate p = .error (.valueError Payload.missing_config_msg) := by
    intro hms hcm2
    subst hms; subst hcm2
    rw [hv]; rfl
  refine ⟨⟨?_, ?_⟩, hcase2, hcase3, hcase4⟩
  · intro h
    by_cases hms : ms = []
    · by_cases hcm2 : cm = []
      · rw [hcase4 hms hcm2] at h
        injection h with h
        injection h with h
        exact absurd h (by decide)
      · rw [hcase2 hms hcm2] at h
        exact nomatch h
    · by_cases hcm2 : cm = []
      · rw [hcase3 hms hcm2] at h
        exact absurd h (check_matchers_ne_mutual p ms)
      · exact ⟨hms, hcm2⟩
  · rintro ⟨hms, hcm2⟩
    rw [hv]
    cases ms with
    | nil => exact absurd rfl hms
    | cons e rest =>
      cases cm with
      | nil => exact absurd rfl hcm2
      | cons e2 rest2 => rfl

/-- Counterexample for C3: a payload with neither collection configuration
fails `validate` with the missing-configuration error — it does not pass as a
legal no-op. -/
theorem c3_counterexample :
    Payload.validate c3_payload_neither
        = .error (.valueError Payload.missing_config_msg) ∧
    ¬ Payload.validate c3_payload_neither = .ok () :=
  ⟨rfl, fun h => nomatch h⟩

/-- Witness for C3 at concrete payloads: both configured fails with the
mutual-exclusion error, legacy-only validates. -/
theorem c3_witness :
    Payload.validate c3_payload_both
        = .error (.valueError Payload.mutually_exclusive_msg) ∧
    Payload.validate c3_payload_legacy = .ok () := by
  have h1 := c3_mutual_exclusion c3_payload_both _ _ _ _ _ _ _ _
    rfl rfl rfl rfl rfl rfl rfl rfl
  have h2 := c3_mutual_exclusion c3_payload_legacy _ _ _ _ _ _ _ _
    rfl rfl rfl rfl rfl rfl rfl rfl
  exact ⟨h1.1.mpr ⟨by simp, by simp⟩, h2.2.1 rfl (by simp)⟩

/-- C6: `get_collection_upload_options` returns the per-collection
`upload_options` entry when it is present and truthy, otherwise falls back to
the global `upload_options`, and raises the error naming the collection
exactly when the resolved result is still falsy — so with a non-empty global
`upload_options` and no per-collection override, every name resolves to the
global options. -/
theorem c6_upload_options_fallback (p : Dict) (N : String) (copts g : Dict)
    (hc : Payload.get_collection_options p N = .ok copts)
    (hg : Payload.global_upload_options p = .ok g) :
    (∀ v, AList.get? copts "upload_options" = some v → v.truthy = true →
        Payload.get_collection_upload_options p N = .ok v) ∧
    ((AList.getD copts "upload_options" (.obj [])).truthy = false →
      (g ≠ [] → Payload.get_collection_upload_options p N = .ok (.obj g)) ∧
      (g = [] → Payload.get_collection_upload_options p N
          = .error (.valueError
              ("No upload options found for collection '" ++ N ++ "'")))) := by
  have hbase : Payload.get_collection_upload_options p N =
      (if (AList.getD copts "upload_options" (.obj [])).truthy then
        Except.ok (AList.getD copts "upload_options" (.obj []))
      else if (JValue.obj g).truthy then Except.ok (.obj g)
      else .error
        (.valueError ("No upload options found for collection '" ++ N ++ "'"))) := by
    unfold Payload.get_collection_upload_options
    rw [hc]
    simp only [ok_bind]
    split
    · rfl
    · rw [hg]
      simp only [ok_bind]
  constructor
  · intro v hv htr
    have hgd : AList.getD copts "upload_options" (.obj []) = v := by
      simp [AList.getD, hv]
    rw [hbase, hgd, if_pos htr]
  · intro hfalse
    constructor
    · intro hne
      have htr : (JValue.obj g).truthy = true := by
        simp [JValue.truthy, hne]
      rw [hbase, if_neg (by simp [hfalse]), if_pos htr]
    · intro hnil
      subst hnil
      rw [hbase, if_neg (by simp [hfalse])]
      rfl

/-- Witness for C6: fallback to the global options, per-collection override,
and the failure naming the collection. -/
theorem c6_witness :
    Payload.get_collection_upload_options c6_payload_global_only "anything"
        = .ok (.obj [("path_template", .str "/g")]) ∧
    Payload.get_collection_upload_options c6_payload_override "C"
        = .ok (.obj [("path_template", .str "/c")]) ∧
    Payload.get_collection_upload_options c6_payload_empty "Z"
        = .error (.valueError "No upload options found for collection 'Z'") := by
  have h1 := c6_upload_options_fallback c6_payload_global_only "anything"
    [] [("path_template", .str "/g")] rfl rfl
  have h2 := c6_upload_options_fallback c6_payload_override "C"
    [("upload_options", .obj [("path_template", .str "/c")])]
    [("path_template", .str "/g")] rfl rfl
  have h3 := c6_upload_options_fallback c6_payload_empty "Z" [] [] rfl rfl
  refine ⟨(h1.2 (by decide)).1 (by simp), ?_, (h3.2 (by decide)).2 rfl⟩
  exact h2.1 (.obj [("path_template", .str "/c")]) rfl (by decide)

/-! ## Lemmas about the extension sort order -/

/-- Unfolding of the lexicographic comparison on cons cells. -/
theorem Task.charListLe_cons_iff (x y : Char) (as bs : List Char) :
    Task.charListLe (x :: as) (y :: bs) = true
      ↔ (x < y ∨ (x = y ∧ Task.charListLe as bs = true)) := by
  show (if x < y then true else if y < x then false else Task.charListLe as bs) = true ↔ _
  by_cases h1 : x < y
  · simp [h1]
  · by_cases h2 : y < x
    · have hne : ¬ x = y := fun h => absurd (h ▸ h2) (lt_irrefl x)
      simp [h1, h2, hne]
    · have heq : x = y := le_antisymm (not_lt.mp h2) (not_lt.mp h1)
      rw [if_neg h1, if_neg h2]
      simp [heq]

/-- The lexicographic comparison is total. -/
theorem Task.charListLe_total : ∀ a b : List Char,
    Task.charListLe a b = true ∨ Task.charListLe b a = true
  | [], _ => .inl rfl
  | _ :: _, [] => .inr rfl
  | x :: as, y :: bs => by
    rcases lt_trichotomy x y with h | h | h
    · exact .inl ((Task.charListLe_cons_iff x y as bs).mpr (.inl h))
    · subst h
      rcases Task.charListLe_total as bs with ih | ih
      · exact .inl ((Task.charListLe_cons_iff x x as bs).mpr (.inr ⟨rfl, ih⟩))
      · exact .inr ((Task.charListLe_cons_iff x x bs as).mpr (.inr ⟨rfl, ih⟩))
    · exact .inr ((Task.charListLe_cons_iff y x bs as).mpr (.inl h))

/-- The lexicographic comparison is transitive. -/
theorem Task.charListLe_trans : ∀ a b c : List Char, Task.charListLe a b = true →
    Task.charListLe b c = true → Task.charListLe a c = true
  | [], _, _, _, _ => rfl
  | _ :: _, [], _, hab, _ => by simp [Task.charListLe] at hab
  | _ :: _, _ :: _, [], _, hbc => by simp [Task.charListLe] at hbc
  | x :: as, y :: bs, z :: cs, hab, hbc => by
    rw [Task.charListLe_cons_iff] at hab hbc ⊢
    rcases hab with h1 | ⟨h1, h1'⟩
    · rcases hbc with h2 | ⟨h2, h2'⟩
      · exact .inl (h1.trans h2)
      · exact .inl (h2 ▸ h1)
    · rcases hbc with h2 | ⟨h2, h2'⟩
      · exact .inl (h1 ▸ h2)
      · exact .inr ⟨h1.trans h2, Task.charListLe_trans as bs cs h1' h2'⟩

/-- The lexicographic comparison is antisymmetric. -/
theorem Task.charListLe_antisymm : ∀ a b : List Char, Task.charListLe a b = true →
    Task.charListLe b a = true → a = b
  | [], [], _, _ => rfl
  | [], _ :: _, _, hba => by simp [Task.charListLe] at hba
  | _ :: _, [], hab, _ => by simp [Task.charListLe] at hab
  | x :: as, y :: bs, hab, hba => by
    rw [Task.charListLe_cons_iff] at hab hba
    rcases hab with h1 | ⟨h1, h1'⟩
    · rcases hba with h2 | ⟨h2, h2'⟩
      · exact absurd (h1.trans h2) (lt_irrefl x)
      · exact absurd h1 (h2 ▸ lt_irrefl y)
    · rcases hba with h2 | ⟨h2, h2'⟩
      · exact absurd h2 (h1 ▸ lt_irrefl x)
      · rw [h1, Task.charListLe_antisymm as bs h1' h2']

/-- String order totality. -/
theorem Task.strLe_total (a b : String) :
    Task.strLe a b = true ∨ Task.strLe b a = true :=
  Task.charListLe_total a.data b.data

/-- String order transitivity. -/
theorem Task.strLe_trans {a b c : String} (hab : Task.strLe a b = true)
    (hbc : Task.strLe b c = true) : Task.strLe a c = true :=
  Task.charListLe_trans a.data b.data c.data hab hbc

/-- String order antisymmetry. -/
theorem Task.strLe_antisymm {a b : String} (hab : Task.strLe a b = true)
    (hba : Task.strLe b a = true) : a = b := by
  have h := Task.charListLe_antisymm a.data b.data hab hba
  cases a; cases b
  exact congrArg String.mk h

/-- A list of JSON strings passes the element check and comes back as its
string values. -/
theorem exts_as_strings_map_str : ∀ l : List String,
    Task.exts_as_strings (l.map .str) = .ok l
  | [] => rfl
  | s :: rest => by
    simp [Task.exts_as_strings, exts_as_strings_map_str rest]

/-- C7: post-processing requires the extension-list field, when present, to be
a list — anything else is a fatal `TypeError` naming the field — and leaves
the record's extension list equal to the ascending lexicographically sorted
version of whatever the post-process hook produced: the result is sorted, is a
permutation of the hook's output, and is identical for any two hook outputs
that are permutations of each other. -/
theorem c7_extensions_sorted (hook : Dict → Dict) (item : Dict) :
    (∀ v, AList.get? (hook item) "stac_extensions" = some v → (∀ l, v ≠ .arr l) →
      Task.post_process_item_internal hook item
          = .error (.typeError "stac_extensions must be type list")) ∧
    (∀ exts : List String,
      AList.get? (hook item) "stac_extensions" = some (.arr (exts.map .str)) →
      Task.post_process_item_internal hook item
          = .ok (AList.insert (hook item) "stac_extensions"
              (.arr ((Task.sort_extensions exts).map .str))) ∧
        (Task.sort_extensions exts).Sorted (fun a b => Task.strLe a b = true) ∧
        (Task.sort_extensions exts).Perm exts) ∧
    (∀ e1 e2 : List String, e1.Perm e2 →
      Task.sort_extensions e1 = Task.sort_extensions e2) := by
  haveI htot : IsTotal String (fun a b => Task.strLe a b = true) := ⟨Task.strLe_total⟩
  haveI htr : IsTrans String (fun a b => Task.strLe a b = true) :=
    ⟨fun _ _ _ => Task.strLe_trans⟩
  haveI hanti : IsAntisymm String (fun a b => Task.strLe a b = true) :=
    ⟨fun _ _ => Task.strLe_antisymm⟩
  refine ⟨?_, ?_, ?_⟩
  · intro v hv hnot
    unfold Task.post_process_item_internal
    rw [hv]
    cases v with
    | arr l => exact absurd rfl (hnot l)
    | null => rfl
    | bool b => rfl
    | num n => rfl
    | str s => rfl
    | obj o => rfl
  · intro exts hv
    refine ⟨?_, List.sorted_insertionSort _ exts, List.perm_insertionSort _ exts⟩
    unfold Task.post_process_item_internal
    rw [hv]
    show (Task.exts_as_strings (exts.map .str) >>= fun strs =>
        Except.ok (AList.insert (hook item) "stac_extensions"
          (.arr ((Task.sort_extensions strs).map .str)))) = _
    rw [exts_as_strings_map_str exts]
    simp only [ok_bind]
  · intro e1 e2 hperm
    exact List.eq_of_perm_of_sorted
      (((List.perm_insertionSort _ e1).trans hperm).trans
        (List.perm_insertionSort _ e2).symm)
      (List.sorted_insertionSort _ e1)
      (List.sorted_insertionSort _ e2)

/-- Witness for C7: the out-of-order hook output comes back sorted, and a
non-list extension field is a fatal `TypeError`. -/
theorem c7_witness :
    Task.post_process_item_internal c7_hook [("id", .str "x")]
        = .ok [("id", .str "x"), ("stac_extensions", .arr [.str "a", .str "b"])] ∧
    Task.post_process_item_internal (fun item => item)
        [("stac_extensions", .str "bad")]
        = .error (.typeError "stac_extensions must be type list") := by
  have h := c7_extensions_sorted c7_hook [("id", .str "x")]
  have h2 := c7_extensions_sorted (fun item => item) [("stac_extensions", .str "bad")]
  exact ⟨(h.2.1 ["b", "a"] rfl).1, h2.1 (.str "bad") rfl (fun l hl => nomatch hl)⟩

/-! ## Lemmas about the deprecated tasks-list normalization -/

/-- `find?` over an append scans the left list first. -/
theorem find?_append_or {β : Type} (p : β → Bool) : ∀ (l1 l2 : List β),
    (l1 ++ l2).find? p = (l1.find? p).or (l2.find? p)
  | [], l2 => by simp [Option.or]
  | b :: l1, l2 => by
    by_cases hb : p b
    · simp [List.find?_cons_of_pos _ hb, Option.or]
    · simp [List.find?_cons_of_neg _ hb, find?_append_or p l1 l2]

/-- Looking a key up after folding entries in by `insert` finds the **last**
entry carrying that key (later entries overwrite earlier ones). -/
theorem get?_foldl_insert {α : Type} (k : String) :
    ∀ (entries : List (String × α)) (d : AList α),
    AList.get? (entries.foldl (fun acc e => AList.insert acc e.1 e.2) d) k
      = ((entries.reverse.find? (fun e => e.1 == k)).map (·.2)).or (AList.get? d k)
  | [], d => by simp [Option.or]
  | e :: rest, d => by
    rw [List.foldl_cons]
    rw [get?_foldl_insert k rest (AList.insert d e.1 e.2), AList.get?_insert]
    rw [List.reverse_cons, find?_append_or]
    cases hfind : rest.reverse.find? (fun e => e.1 == k) with
    | some v => simp [Option.or]
    | none =>
      by_cases he : e.1 = k
      · simp [List.find?, he, Option.or]
      · have hb : (e.1 == k) = false := by simpa using he
        have hkne : ¬ k = e.1 := fun hh => he hh.symm
        simp [List.find?, hb, hkne, Option.or]

/-- A well-formed encoded entry parses back to itself. -/
theorem task_list_entry_encode (e : String × Dict) :
    Payload.task_list_entry (task_cfg_encode e) = .ok e := rfl

/-- An entry whose present `parameters` is not a mapping raises the shape
error naming the task. -/
theorem task_list_entry_bad (name : String) (bad : JValue) (h : ∀ l, bad ≠ .obj l) :
    Payload.task_list_entry (.obj [("name", .str name), ("parameters", bad)])
      = .error (.typeError
          ("unable to parse 'parameters' for task '" ++ name ++ "': must be type dict")) := by
  cases bad with
  | obj l => exact absurd rfl (h l)
  | null => rfl
  | bool b => rfl
  | num n => rfl
  | str s => rfl
  | arr l => rfl

/-- On well-formed entries the normalization loop is the `insert` fold. -/
theorem task_options_from_list_encode :
    ∀ (entries : List (String × Dict)) (options : AList Dict),
    Payload.task_options_from_list options (entries.map task_cfg_encode)
      = .ok (entries.foldl (fun acc e => AList.insert acc e.1 e.2) options)
  | [], options => rfl
  | e :: rest, options => by
    simp only [List.map_cons]
    unfold Payload.task_options_from_list
    rw [task_list_entry_encode]
    simp only [ok_bind]
    exact task_options_from_list_encode rest (AList.insert options e.1 e.2)

/-- The normalization loop stops with the first malformed entry's error. -/
theorem task_options_from_list_error (e : PyError) (bad : JValue)
    (hx : Payload.task_list_entry bad = .error e) :
    ∀ (l1 : List (String × Dict)) (l2 : List JValue) (options : AList Dict),
    Payload.task_options_from_list options ((l1.map task_cfg_encode) ++ bad :: l2)
      = .error e
  | [], l2, options => by
    simp only [List.map_nil, List.nil_append]
    unfold Payload.task_options_from_list
    rw [hx]
    simp only [error_bind]
  | b :: l1, l2, options => by
    simp only [List.map_cons, List.cons_append]
    unfold Payload.task_options_from_list
    rw [task_list_entry_encode]
    simp only [ok_bind]
    exact task_options_from_list_error e bad hx l1 l2 _

/-- C4 (amended): the deprecated tasks-list form is normalized 1:1 into a
mapping of task name to parameter mapping, except that a task name appearing
multiple times resolves to its **last** entry (the loop overwrites
`options[name]`), not its first; a present non-mapping `parameters` raises the
shape error naming the task; and `task_options` of an absent task name is the
empty mapping. -/
theorem c4_tasks_list_normalization (entries : List (String × Dict)) (T : String) :
    (Task.task_options (tasks_list_payload (entries.map task_cfg_encode)) T
      = .ok (((entries.reverse.find? (fun e => e.1 == T)).map (·.2)).getD [])) ∧
    (∀ (pre : List (String × Dict)) (name : String) (bad : JValue) (post : List JValue),
      (∀ l, bad ≠ .obj l) →
      Payload.task_options_dict (tasks_list_payload
          ((pre.map task_cfg_encode)
            ++ .obj [("name", .str name), ("parameters", bad)] :: post))
        = .error (.typeError
            ("unable to parse 'parameters' for task '" ++ name ++ "': must be type dict"))) := by
  constructor
  · have hd : Payload.task_options_dict (tasks_list_payload (entries.map task_cfg_encode))
        = .ok (entries.foldl (fun acc e => AList.insert acc e.1 e.2) []) := by
      show Payload.task_options_from_list [] (entries.map task_cfg_encode) = _
      exact task_options_from_list_encode entries []
    show (Payload.task_options_dict (tasks_list_payload (entries.map task_cfg_encode))
        >>= fun d => Except.ok ((AList.get? d T).getD [])) = _
    rw [hd]
    simp only [ok_bind]
    rw [get?_foldl_insert]
    cases hfind : entries.reverse.find? (fun e => e.1 == T) with
    | some v => simp [Option.or]
    | none => simp [Option.or, AList.get?]
  · intro pre name bad post hbad
    show Payload.task_options_from_list []
        ((pre.map task_cfg_encode)
          ++ JValue.obj [("name", .str name), ("parameters", bad)] :: post) = _
    exact task_options_from_list_error _ _ (task_list_entry_bad name bad hbad) pre post []

/-- Counterexample for C4: with `x` listed twice, `task_options` resolves to
the last entry `p = 2`, not the first entry `p = 1` as the claim states. -/
theorem c4_counterexample :
    Task.task_options c4_payload "x" = .ok [("p", .num 2)] ∧
    ¬ Task.task_options c4_payload "x" = .ok [("p", .num 1)] := by
  refine ⟨rfl, fun h => ?_⟩
  injection h with h
  have h2 : [("p", JValue.num 2)] = [("p", JValue.num 1)] := h
  simp at h2

/-- Witness for C4: unique names translate 1:1, an absent task resolves to the
empty mapping, and a non-mapping `parameters` is the shape error. -/
theorem c4_witness :
    Task.task_options (tasks_list_payload [task_cfg_encode ("x", [("p", .num 1)])]) "x"
        = .ok [("p", .num 1)] ∧
    Task.task_options (tasks_list_payload [task_cfg_encode ("x", [("p", .num 1)])]) "y"
        = .ok [] ∧
    Payload.task_options_dict (tasks_list_payload
        [.obj [("name", .str "t"), ("parameters", .str "oops")]])
      = .error (.typeError "unable to parse 'parameters' for task 't': must be type dict") := by
  have h1 := c4_tasks_list_normalization [("x", [("p", .num 1)])] "x"
  have h2 := c4_tasks_list_normalization [("x", [("p", .num 1)])] "y"
  have h3 := (c4_tasks_list_normalization [] "t").2 [] "t" (.str "oops") []
    (fun l hl => nomatch hl)
  exact ⟨h1.1, h2.1, h3⟩

/-- C10: structural payload validation cannot be disabled — `Task.__init__`
always runs `Payload.validate` first, so for every structurally invalid
payload, construction fails with the validation error for all flag
combinations, and `handler` fails identically whatever `process` entry point
the task class carries (the entry point is never consulted); the
`skip_validation`/`validate` flags gate only the task's own overridable
`validate` hook. -/
theorem c10_payload_validation_not_skippable (tc : Task.TaskClass) (p : Dict)
    (e : PyError) (sv v : Bool)
    (h : Payload.validate p = .error e) :
    Task.init tc p sv v = .error e ∧
    (∀ (proc : Dict → List Dict) (jp : MatchEngine),
      Task.handler jp { tc with process := proc } p sv v = .error e) ∧
    (∀ p2 : Dict, Payload.validate p2 = .ok () →
      (Task.init tc p2 true v = .ok p2) ∧
      (Task.init tc p2 sv false = .ok p2) ∧
      (tc.validate_hook p2 = true → Task.init tc p2 sv v = .ok p2) ∧
      (tc.validate_hook p2 = false →
        Task.init tc p2 false true = .error .failedValidation)) := by
  have hinit : ∀ tc2 : Task.TaskClass, Task.init tc2 p sv v = .error e := by
    intro tc2
    unfold Task.init
    rw [h]
    simp only [error_bind]
  refine ⟨hinit tc, ?_, ?_⟩
  · intro proc jp
    unfold Task.handler
    rw [hinit { tc with process := proc }]
    simp only [error_bind]
  · intro p2 h2
    refine ⟨?_, ?_, ?_, ?_⟩
    · unfold Task.init
      rw [h2]
      simp
    · unfold Task.init
      rw [h2]
      simp
    · intro hhook
      unfold Task.init
      rw [h2]
      simp [hhook]
    · intro hhook
      unfold Task.init
      rw [h2]
      simp [hhook]

/-- Witness for C10: with `skip_validation = True` and `validate = False` the
invalid payload still fails construction and the handler, while the valid
payload constructs. -/
theorem c10_witness :
    Task.init c10_task c10_bad_payload true false
        = .error (.typeError "unable to parse 'process': must be type list") ∧
    Task.handler (fun _ _ => 0) c10_task c10_bad_payload true false
        = .error (.typeError "unable to parse 'process': must be type list") ∧
    Task.init c10_task c10_ok_payload true false = .ok c10_ok_payload := by
  have h := c10_payload_validation_not_skippable c10_task c10_bad_payload
    (.typeError "unable to parse 'process': must be type list") true false rfl
  refine ⟨h.1, ?_, ?_⟩
  · exact h.2.1 c10_task.process (fun _ _ => 0)
  · exact (h.2.2 c10_ok_payload rfl).2.2.1 rfl

/-- C9 (amended): during collection assignment the resolver is consulted with
the matcher list when it is non-empty and otherwise with the legacy mapping;
for each record, a returned **non-empty** collection name is written to the
record's `collection` field (leaving every other field unchanged), while a
record for which no collection — or the empty-string collection name, which
the truthiness test swallows — comes back is left entirely unchanged. -/
theorem c9_assignment_frame (jp : MatchEngine) (p : Dict) (ms : List JValue)
    (items : List JValue) (config item : JValue)
    (hm : Payload.collection_matchers p = .ok ms)
    (hf : AList.get? p "features" = some (.arr items)) :
    (ms ≠ [] → Task.assign_collections jp p
        = (Task.assign_items jp (.arr ms) items >>= fun items' =>
            .ok (AList.insert p "features" (.arr items')))) ∧
    (∀ cm : Dict, ms = [] → Payload.collection_mapping p = .ok cm →
      Task.assign_collections jp p
        = (Task.assign_items jp (.obj cm) items >>= fun items' =>
            .ok (AList.insert p "features" (.arr items')))) ∧
    (∀ c d, find_collection jp config item = .ok (some c) → c ≠ "" → item = .obj d →
      Task.assign_one jp config item
        = .ok (.obj (AList.insert d "collection" (.str c)))) ∧
    (find_collection jp config item = .ok none →
      Task.assign_one jp config item = .ok item) ∧
    (find_collection jp config item = .ok (some "") →
      Task.assign_one jp config item = .ok item) ∧
    (∀ (d : Dict) (c : JValue) (k : String), k ≠ "collection" →
      AList.get? (AList.insert d "collection" c) k = AList.get? d k) := by
  refine ⟨?_, ?_, ?_, ?_, ?_, ?_⟩
  · intro hne
    unfold Task.assign_collections
    rw [hm]
    simp only [ok_bind]
    cases ms with
    | nil => exact absurd rfl hne
    | cons m rest =>
      simp only [List.isEmpty_cons, Bool.not_false, if_true]
      simp only [ok_bind]
      rw [hf]
  · intro cm hnil hcm
    subst hnil
    unfold Task.assign_collections
    rw [hm]
    simp only [ok_bind, List.isEmpty_nil, Bool.not_true, Bool.false_eq_true, if_false]
    rw [hcm]
    simp only [ok_bind]
    rw [hf]
  · intro c d hfind hne hitem
    subst hitem
    unfold Task.assign_one
    rw [hfind]
    simp only [ok_bind]
    rw [if_neg (fun hh : c.isEmpty = true => hne ((String.isEmpty_iff c).mp hh))]
  · intro hfind
    unfold Task.assign_one
    rw [hfind]
    simp only [ok_bind]
  · intro hfind
    unfold Task.assign_one
    rw [hfind]
    simp only [ok_bind]
    rfl
  · intro d c k hk
    rw [AList.get?_insert, if_neg hk]

/-- Counterexample for C9: the resolver returns the collection name `""`, yet
assignment leaves the record without a `collection` field — the walrus
truthiness test drops the returned name, contradicting the claim that a
returned collection name is always written. -/
theorem c9_counterexample :
    find_collection c9_jp (.arr c9_matchers) (.obj [("id", .str "x")]) = .ok (some "") ∧
    Task.assign_collections c9_jp c9_payload = .ok c9_payload ∧
    AList.get? [("id", JValue.str "x")] "collection" = none :=
  ⟨rfl, rfl, rfl⟩

/-- Witness for C9: a matched record gets its `collection` field set with its
other fields intact, and an unmatched record is returned unchanged. -/
theorem c9_witness :
    Task.assign_collections c9_jp c9w_payload
        = .ok [("process", .arr [.obj [("collection_matchers",
            .arr [.obj [("type", .str "catch_all"), ("collection_name", .str "D")]])]]),
          ("features", .arr [.obj [("id", .str "i"), ("collection", .str "D")]])] ∧
    Task.assign_one c9_jp (.arr [.obj [("type", .str "jsonpath"),
        ("pattern", .str "nope"), ("collection_name", .str "D")]]) (.obj [("id", .str "i")])
      = .ok (.obj [("id", .str "i")]) := by
  have h := c9_assignment_frame c9_jp c9w_payload
    [.obj [("type", .str "catch_all"), ("collection_name", .str "D")]]
    [.obj [("id", .str "i")]]
    (.arr [.obj [("type", .str "jsonpath"),
      ("pattern", .str "nope"), ("collection_name", .str "D")]])
    (.obj [("id", .str "i")]) rfl rfl
  refine ⟨?_, h.2.2.2.1 rfl⟩
  exact (h.1 (by simp)).trans rfl

/-- `contains` is lookup success. -/
theorem contains_eq_isSome_get? {α : Type} (d : AList α) (k : String) :
    AList.contains d k = (AList.get? d k).isSome := by
  induction d with
  | nil => rfl
  | cons e rest ih =>
    by_cases he : e.1 = k
    · simp [AList.contains, AList.get?, he]
    · have hb : (e.1 == k) = false := by simpa using he
      simp only [AList.contains, List.any_cons, hb, Bool.false_or, AList.get?, if_neg he]
      exact ih

/-- A map that fixes every element of a list fixes the list. -/
theorem map_id_of_forall {β : Type} (f : β → β) : ∀ l : List β,
    (∀ a ∈ l, f a = a) → l.map f = l
  | [], _ => rfl
  | b :: l, h => by
    rw [List.map_cons, h b (by simp), map_id_of_forall f l (fun a ha => h a (by simp [ha]))]

/-- After `insert`, every binding of the inserted key carries the inserted
value. -/
theorem insert_key_entries {α : Type} (d : AList α) (k : String) (v : α) :
    ∀ e ∈ AList.insert d k v, e.1 = k → e = (k, v) := by
  intro e he hek
  by_cases hc : AList.contains d k
  · rw [AList.insert, if_pos hc] at he
    obtain ⟨e', he', hfe⟩ := List.mem_map.mp he
    by_cases h' : e'.1 = k
    · rw [if_pos h'] at hfe
      exact hfe.symm
    · rw [if_neg h'] at hfe
      subst hfe
      exact absurd hek h'
  · rw [AList.insert, if_neg hc] at he
    rcases List.mem_append.mp he with h1 | h2
    · exfalso
      refine AList.not_mem_keys_of_contains_eq_false (Bool.eq_false_iff.mpr hc) ?_
      rw [← hek]
      exact List.mem_map.mpr ⟨e, h1, rfl⟩
    · simpa using h2

/-- Re-inserting the same binding is a no-op. -/
theorem insert_insert_same {α : Type} (d : AList α) (k : String) (v : α) :
    AList.insert (AList.insert d k v) k v = AList.insert d k v := by
  have hc : AList.contains (AList.insert d k v) k = true := by
    rw [contains_eq_isSome_get?, AList.get?_insert]
    simp
  rw [AList.insert, if_pos hc]
  apply map_id_of_forall
  intro e he
  by_cases hek : e.1 = k
  · rw [if_pos hek]
    exact (insert_key_entries d k v e he hek).symm
  · rw [if_neg hek]

/-- When no pattern reads the `collection` field, legacy-mapping resolution is
unchanged by a `collection` update. -/
theorem find_mapping_congr (jp : MatchEngine)
    (hins : ∀ (d : Dict) (v : JValue) (pat : String),
      jp (.obj (AList.insert d "collection" v)) pat = jp (.obj d) pat)
    (dd : Dict) (v : JValue) : ∀ mp : Dict,
    find_collection_from_mapping jp mp (.obj (AList.insert dd "collection" v))
      = find_collection_from_mapping jp mp (.obj dd)
  | [] => rfl
  | (c, expr) :: rest => by
    cases expr with
    | str e =>
      simp only [find_collection_from_mapping]
      rw [show stac_jsonpath_match jp (.obj (AList.insert dd "collection" v)) e
          = stac_jsonpath_match jp (.obj dd) e from by
        unfold stac_jsonpath_match; rw [hins]]
      by_cases hm : stac_jsonpath_match jp (.obj dd) e
      · simp [hm]
      · simp [hm, find_mapping_congr jp hins dd v rest]
    | null => rfl
    | bool b => rfl
    | num n => rfl
    | arr l => rfl
    | obj o => rfl

/-- When no pattern reads the `collection` field, matcher-list resolution is
unchanged by a `collection` update. -/
theorem find_matchers_congr (jp : MatchEngine)
    (hins : ∀ (d : Dict) (v : JValue) (pat : String),
      jp (.obj (AList.insert d "collection" v)) pat = jp (.obj d) pat)
    (dd : Dict) (v : JValue) : ∀ ms : List JValue,
    find_collection_from_matchers jp ms (.obj (AList.insert dd "collection" v))
      = find_collection_from_matchers jp ms (.obj dd)
  | [] => rfl
  | m :: rest => by
    cases m with
    | obj d' =>
      cases ht : AList.get? d' "type" with
      | none => simp [find_collection_from_matchers, ht]
      | some tv =>
        cases hcn : AList.get? d' "collection_name" with
        | none => simp [find_collection_from_matchers, ht, hcn]
        | some cnv =>
          cases tv with
          | str t =>
            by_cases hjt : t = "jsonpath"
            · subst hjt
              cases hp : AList.get? d' "pattern" with
              | none => simp [find_collection_from_matchers, ht, hcn, hp]
              | some pv =>
                cases pv with
                | str pat =>
                  simp only [find_collection_from_matchers, ht, hcn, hp, if_pos rfl]
                  rw [show stac_jsonpath_match jp (.obj (AList.insert dd "collection" v)) pat
                      = stac_jsonpath_match jp (.obj dd) pat from by
                    unfold stac_jsonpath_match; rw [hins]]
                  by_cases hmatch : stac_jsonpath_match jp (.obj dd) pat
                  · simp [hmatch]
                  · simp [hmatch, find_matchers_congr jp hins dd v rest]
                | null => simp [find_collection_from_matchers, ht, hcn, hp]
                | bool b => simp [find_collection_from_matchers, ht, hcn, hp]
                | num n => simp [find_collection_from_matchers, ht, hcn, hp]
                | arr l => simp [find_collection_from_matchers, ht, hcn, hp]
                | obj o => simp [find_collection_from_matchers, ht, hcn, hp]
            · by_cases hct : t = "catch_all"
              · simp [find_collection_from_matchers, ht, hcn, hjt, hct]
              · simp [find_collection_from_matchers, ht, hcn, hjt, hct]
          | null => simp [find_collection_from_matchers, ht, hcn]
          | bool b => simp [find_collection_from_matchers, ht, hcn]
          | num n => simp [find_collection_from_matchers, ht, hcn]
          | arr l => simp [find_collection_from_matchers, ht, hcn]
          | obj o => simp [find_collection_from_matchers, ht, hcn]
    | null => rfl
    | bool b => rfl
    | num n => rfl
    | str s => rfl
    | arr l => rfl

/-- When no pattern reads the `collection` field, `find_collection` is
unchanged by a `collection` update. -/
theorem find_collection_congr (jp : MatchEngine)
    (hins : ∀ (d : Dict) (v : JValue) (pat : String),
      jp (.obj (AList.insert d "collection" v)) pat = jp (.obj d) pat)
    (config : JValue) (dd : Dict) (v : JValue) :
    find_collection jp config (.obj (AList.insert dd "collection" v))
      = find_collection jp config (.obj dd) := by
  cases config with
  | obj mp =>
    by_cases htr : (JValue.obj mp).truthy
    · simp [find_collection, htr, find_mapping_congr jp hins dd v mp]
    · simp [find_collection, htr]
  | arr ms =>
    by_cases htr : (JValue.arr ms).truthy
    · simp [find_collection, htr, find_matchers_congr jp hins dd v ms]
    · simp [find_collection, htr]
  | null => rfl
  | bool b => rfl
  | num n => rfl
  | str s => rfl

/-- `assign_one` when no collection is found: the record is unchanged. -/
theorem assign_one_eval_none (jp : MatchEngine) (config item : JValue)
    (hf : find_collection jp config item = .ok none) :
    Task.assign_one jp config item = .ok item := by
  unfold Task.assign_one
  rw [hf]
  rfl

/-- `assign_one` when a collection name is found: the truthiness-guarded
update. -/
theorem assign_one_eval_some (jp : MatchEngine) (config item : JValue) (c : String)
    (hf : find_collection jp config item = .ok (some c)) :
    Task.assign_one jp config item
      = (if c.isEmpty then Except.ok item
        else match item with
          | JValue.obj d => Except.ok (JValue.obj (AList.insert d "collection" (JValue.str c)))
          | _ => Except.error (.typeError "item must support item assignment")) := by
  unfold Task.assign_one
  rw [hf]
  rfl

/-- `assign_one` propagates resolver errors. -/
theorem assign_one_eval_error (jp : MatchEngine) (config item : JValue) (e : PyError)
    (hf : find_collection jp config item = .error e) :
    Task.assign_one jp config item = .error e := by
  unfold Task.assign_one
  rw [hf]
  rfl

/-- Re-assigning an already-assigned record is a no-op, provided no pattern
reads the `collection` field. -/
theorem assign_one_idem (jp : MatchEngine) (config : JValue)
    (hcongr : ∀ (d : Dict) (v : JValue),
      find_collection jp config (.obj (AList.insert d "collection" v))
        = find_collection jp config (.obj d))
    (item item1 : JValue) (h : Task.assign_one jp config item = .ok item1) :
    Task.assign_one jp config item1 = .ok item1 := by
  cases hf : find_collection jp config item with
  | error e =>
    rw [assign_one_eval_error jp config item e hf] at h
    exact nomatch h
  | ok copt =>
    cases copt with
    | none =>
      rw [assign_one_eval_none jp config item hf] at h
      injection h with h
      subst h
      exact assign_one_eval_none jp config item hf
    | some c =>
      rw [assign_one_eval_some jp config item c hf] at h
      by_cases hempty : c.isEmpty
      · rw [if_pos hempty] at h
        injection h with h
        subst h
        rw [assign_one_eval_some jp config item c hf, if_pos hempty]
      · rw [if_neg hempty] at h
        cases item with
        | obj d =>
          injection h with h
          subst h
          have hf2 : find_collection jp config
              (.obj (AList.insert d "collection" (.str c))) = .ok (some c) :=
            (hcongr d (.str c)).trans hf
          rw [assign_one_eval_some jp config _ c hf2, if_neg hempty]
          show Except.ok (JValue.obj (AList.insert
              (AList.insert d "collection" (JValue.str c)) "collection" (JValue.str c)))
            = Except.ok (JValue.obj (AList.insert d "collection" (JValue.str c)))
          rw [insert_insert_same]
        | null => exact nomatch h
        | bool b => exact nomatch h
        | num n => exact nomatch h
        | str s => exact nomatch h
        | arr l => exact nomatch h

/-- Re-assigning an already-assigned record list is a no-op, provided no
pattern reads the `collection` field. -/
theorem assign_items_idem (jp : MatchEngine) (config : JValue)
    (hcongr : ∀ (d : Dict) (v : JValue),
      find_collection jp config (.obj (AList.insert d "collection" v))
        = find_collection jp config (.obj d)) :
    ∀ (items items' : List JValue),
    Task.assign_items jp config items = .ok items' →
    Task.assign_items jp config items' = .ok items'
  | [], items', h => by
    injection h with h
    subst h
    rfl
  | item :: rest, items', h => by
    unfold Task.assign_items at h
    cases h1 : Task.assign_one jp config item with
    | error e =>
      rw [h1] at h
      simp only [error_bind] at h
      exact nomatch h
    | ok item1 =>
      rw [h1] at h
      simp only [ok_bind] at h
      cases h2 : Task.assign_items jp config rest with
      | error e =>
        rw [h2] at h
        simp only [error_bind] at h
        exact nomatch h
      | ok rest1 =>
        rw [h2] at h
        simp only [ok_bind] at h
        injection h with h
        subst h
        unfold Task.assign_items
        rw [assign_one_idem jp config hcongr item item1 h1]
        simp only [ok_bind]
        rw [assign_items_idem jp config hcongr rest rest1 h2]
        simp only [ok_bind]

/-- Writing `features` back does not disturb the process definition. -/
theorem process_definition_insert_features (p : Dict) (v : JValue) :
    Payload.process_definition (AList.insert p "features" v)
      = Payload.process_definition p := by
  unfold Payload.process_definition
  rw [show AList.getD (AList.insert p "features" v) "process" (.arr [])
      = AList.getD p "process" (.arr []) from by
    unfold AList.getD
    rw [AList.get?_insert, if_neg (by decide)]]

/-- Writing `features` back does not disturb the matcher list. -/
theorem collection_matchers_insert_features (p : Dict) (v : JValue) :
    Payload.collection_matchers (AList.insert p "features" v)
      = Payload.collection_matchers p := by
  unfold Payload.collection_matchers
  rw [process_definition_insert_features]

/-- Writing `features` back does not disturb the legacy mapping. -/
theorem collection_mapping_insert_features (p : Dict) (v : JValue) :
    Payload.collection_mapping (AList.insert p "features" v)
      = Payload.collection_mapping p := by
  unfold Payload.collection_mapping Payload.global_upload_options
  rw [process_definition_insert_features]

/-- C8 (amended): collection assignment is idempotent **provided no JSONPath
pattern's match result depends on the record's `collection` field**: under
that insensitivity hypothesis, running `assign_collections` a second time on
the already-assigned payload returns it unchanged.  Without the hypothesis
idempotence fails, because the first run rewrites the `collection` field that
a pattern such as `$[?(@.collection=='A')]` reads. -/
theorem c8_assign_collections_idem (jp : MatchEngine)
    (hins : ∀ (d : Dict) (v : JValue) (pat : String),
      jp (.obj (AList.insert d "collection" v)) pat = jp (.obj d) pat)
    (p p' : Dict) (h : Task.assign_collections jp p = .ok p') :
    Task.assign_collections jp p' = .ok p' := by
  have hcongr : ∀ (config : JValue) (d : Dict) (v : JValue),
      find_collection jp config (.obj (AList.insert d "collection" v))
        = find_collection jp config (.obj d) :=
    fun config d v => find_collection_congr jp hins config d v
  unfold Task.assign_collections at h
  cases hm : Payload.collection_matchers p with
  | error e =>
    rw [hm] at h
    simp only [error_bind] at h
    exact nomatch h
  | ok ms =>
    rw [hm] at h
    simp only [ok_bind] at h
    cases ms with
    | cons m rest =>
      simp only [List.isEmpty_cons, Bool.not_false, if_true, ok_bind] at h
      cases hf : AList.get? p "features" with
      | none =>
        rw [hf] at h
        exact nomatch h
      | some fv =>
        rw [hf] at h
        cases fv with
        | arr items =>
          replace h : (Task.assign_items jp (.arr (m :: rest)) items >>= fun items' =>
              Except.ok (AList.insert p "features" (.arr items'))) = Except.ok p' := h
          cases ha : Task.assign_items jp (.arr (m :: rest)) items with
          | error e =>
            rw [ha] at h
            simp only [error_bind] at h
            exact nomatch h
          | ok items1 =>
            rw [ha] at h
            simp only [ok_bind] at h
            injection h with h
            subst h
            unfold Task.assign_collections
            rw [collection_matchers_insert_features, hm]
            simp only [ok_bind, List.isEmpty_cons, Bool.not_false, if_true]
            rw [show AList.get? (AList.insert p "features" (.arr items1)) "features"
                = some (.arr items1) from by rw [AList.get?_insert]; simp]
            show (Task.assign_items jp (.arr (m :: rest)) items1 >>= fun items' =>
                Except.ok (AList.insert (AList.insert p "features" (.arr items1))
                  "features" (.arr items'))) = _
            rw [assign_items_idem jp (.arr (m :: rest)) (hcongr _) items items1 ha]
            simp only [ok_bind]
            rw [insert_insert_same]
        | null => exact nomatch h
        | bool b => exact nomatch h
        | num n => exact nomatch h
        | str s => exact nomatch h
        | obj o => exact nomatch h
    | nil =>
      simp only [List.isEmpty_nil, Bool.not_true, Bool.false_eq_true, if_false] at h
      cases hcm : Payload.collection_mapping p with
      | error e =>
        rw [hcm] at h
        simp only [error_bind] at h
        exact nomatch h
      | ok cm =>
        rw [hcm] at h
        simp only [ok_bind] at h
        cases hf : AList.get? p "features" with
        | none =>
          rw [hf] at h
          exact nomatch h
        | some fv =>
          rw [hf] at h
          cases fv with
          | arr items =>
            replace h : (Task.assign_items jp (.obj cm) items >>= fun items' =>
                Except.ok (AList.insert p "features" (.arr items'))) = Except.ok p' := h
            cases ha : Task.assign_items jp (.obj cm) items with
            | error e =>
              rw [ha] at h
              simp only [error_bind] at h
              exact nomatch h
            | ok items1 =>
              rw [ha] at h
              simp only [ok_bind] at h
              injection h with h
              subst h
              unfold Task.assign_collections
              rw [collection_matchers_insert_features, hm]
              simp only [ok_bind, List.isEmpty_nil, Bool.not_true, Bool.false_eq_true,
                if_false]
              rw [collection_mapping_insert_features, hcm]
              simp only [ok_bind]
              rw [show AList.get? (AList.insert p "features" (.arr items1)) "features"
                  = some (.arr items1) from by rw [AList.get?_insert]; simp]
              show (Task.assign_items jp (.obj cm) items1 >>= fun items' =>
                  Except.ok (AList.insert (AList.insert p "features" (.arr items1))
                    "features" (.arr items'))) = _
              rw [assign_items_idem jp (.obj cm) (hcongr _) items items1 ha]
              simp only [ok_bind]
              rw [insert_insert_same]
          | null => exact nomatch h
          | bool b => exact nomatch h
          | num n => exact nomatch h
          | str s => exact nomatch h
          | obj o => exact nomatch h

/-- Counterexample for C8: with a jsonpath matcher whose pattern selects the
record exactly when its `collection` field is `A` (realizable as
`$[?(@.collection=='A')]`, which selects exactly one node on such a record)
followed by a catch-all, the first run assigns `B` and the second run assigns
`C` — the two runs disagree on the record's `collection` value. -/
theorem c8_counterexample :
    Task.assign_collections c8_jp c8_payload = .ok c8_once ∧
    Task.assign_collections c8_jp c8_once = .ok c8_twice ∧
    AList.get? c8_once "features" = some (.arr [.obj [("collection", .str "B")]]) ∧
    AList.get? c8_twice "features" = some (.arr [.obj [("collection", .str "C")]]) ∧
    ("B" : String) ≠ "C" :=
  ⟨rfl, rfl, rfl, rfl, by decide⟩

/-- Witness for C8: with a collection-insensitive engine, re-running
assignment on the assigned payload returns it unchanged. -/
theorem c8_witness :
    Task.assign_collections (fun _ _ => 0) c8w_payload = .ok c8w_once ∧
    Task.assign_collections (fun _ _ => 0) c8w_once = .ok c8w_once :=
  ⟨rfl, c8_assign_collections_idem (fun _ _ => 0) (fun _ _ _ => rfl)
    c8w_payload c8w_once rfl⟩

end StacTask
